import Mathlib

/-!
# Verification of the retrieval-ranking-context pipeline

Shallow embedding of the core pipeline of the repository
(`services/api/src/core/hybrid_ranker.py`, `context_builder.py`,
`query_analyzer.py`) together with theorems settling the specification
claims about it.

Conventions of the embedding:
* Python floats are modelled exactly: raw strategy scores carried in result
  dictionaries are rationals (`ℚ`), and the normalisation arithmetic of the
  ranker (tanh / exp / log) is carried out over the reals (`ℝ`).
* A Python dictionary field that may be absent (read through `.get`) is an
  `Option`; the `.get` default is applied at each read site, exactly as in
  the source.
* `created_at` enters every computation only through
  `age_days = (now - created_at).days`; it is therefore modelled as the age
  in days (`Option ℤ`, `none` standing for a missing or unparseable
  timestamp, both of which the source maps to the same default 0.5).
-/

namespace Jyntrix

/-! ## Hybrid ranker (`core/hybrid_ranker.py`) -/

/-- A retrieval result dictionary, as consumed by `HybridRanker`.  Fields the
ranker reads through `.get` are `Option`-valued; the defaults are applied at
the read sites below, as in the source. -/
structure RetrievalResult where
  memory_id : Option String
  match_type : Option String
  score : Option ℚ
  keyword_score : Option ℚ
  vector_score : Option ℚ
  reliability_score : Option ℚ
  recency_score : Option ℚ
  frequency_score : Option ℚ
  reliability : Option ℚ
  created_at : Option ℤ
  access_count : Option ℤ
  deriving DecidableEq, Repr

/-- Python truthiness of an optional string: `None` and `""` are falsy. -/
def truthyStr : Option String → Option String
  | none => none
  | some s => if s = "" then none else some s

/-- `result.get("score", 0)`. -/
def getScore (r : RetrievalResult) : ℚ := r.score.getD 0

/-- `HybridRanker._merge_results`: keep `result1`'s fields, overwrite the five
score fields and `"score"` with the field-wise maximum (absent fields default
to 0), and combine the truthy match types: the comma-joined sorted set when
there are two distinct ones, the single one when there is one, `"hybrid"`
when there is none. -/
def mergeMatchType (t1 t2 : Option String) : Option String :=
  match truthyStr t1, truthyStr t2 with
  | none, none => some "hybrid"
  | some a, none => some a
  | none, some b => some b
  | some a, some b =>
      if a = b then some a
      else if a < b then some (a ++ "," ++ b) else some (b ++ "," ++ a)

def mergeResults (r1 r2 : RetrievalResult) : RetrievalResult :=
  { r1 with
    keyword_score := some (max (r1.keyword_score.getD 0) (r2.keyword_score.getD 0))
    vector_score := some (max (r1.vector_score.getD 0) (r2.vector_score.getD 0))
    reliability_score :=
      some (max (r1.reliability_score.getD 0) (r2.reliability_score.getD 0))
    recency_score := some (max (r1.recency_score.getD 0) (r2.recency_score.getD 0))
    frequency_score :=
      some (max (r1.frequency_score.getD 0) (r2.frequency_score.getD 0))
    score := some (max (r1.score.getD 0) (r2.score.getD 0))
    match_type := mergeMatchType r1.match_type r2.match_type }

/-- One step of `HybridRanker._deduplicate`'s loop over `results`.  The `seen`
dictionary is an insertion-ordered association list; an update of an existing
key keeps its position, as a Python `dict` does. -/
def dedupStep (seen : List (String × RetrievalResult)) (r : RetrievalResult) :
    List (String × RetrievalResult) :=
  match truthyStr r.memory_id with
  | none => seen
  | some m =>
    match seen.lookup m with
    | none => seen ++ [(m, r)]
    | some existing =>
        if getScore r > getScore existing then
          seen.map fun p => if p.1 = m then (m, mergeResults existing r) else p
        else seen

/-- `HybridRanker._deduplicate`: fold the loop, then `list(seen.values())`. -/
def deduplicate (results : List RetrievalResult) : List RetrievalResult :=
  (results.foldl dedupStep []).map Prod.snd

/-- `min(1.0, max(0.0, x))`. -/
noncomputable def clamp01 (x : ℝ) : ℝ := min 1 (max 0 x)

/-- `HybridRanker._normalize_keyword_score`. -/
noncomputable def normalizeKeywordScore (score : ℝ) : ℝ :=
  if score ≤ 0 then 0 else clamp01 (Real.tanh (score * 0.2))

/-- `HybridRanker._normalize_vector_score`. -/
noncomputable def normalizeVectorScore (score : ℝ) : ℝ :=
  clamp01 ((score + 1) / 2)

/-- `HybridRanker._calculate_recency_score`, as a function of the age in
days; a missing or unparseable `created_at` gives the default 0.5. -/
noncomputable def calculateRecencyScore (ageDays : Option ℤ) : ℝ :=
  match ageDays with
  | none => 0.5
  | some d => clamp01 (Real.exp (-(Real.log 2 / 30) * d))

/-- `HybridRanker._calculate_frequency_score`. -/
noncomputable def calculateFrequencyScore (accessCount : ℤ) : ℝ :=
  if accessCount ≤ 0 then 0
  else clamp01 (Real.log (1 + accessCount) / Real.log (1 + 1000))

/-- The five ranking weights held by a `HybridRanker` instance. -/
structure Weights where
  keyword : ℝ
  vector : ℝ
  reliability : ℝ
  recency : ℝ
  frequency : ℝ

/-- The default weights from `config.py`. -/
noncomputable def defaultWeights : Weights :=
  { keyword := 0.35, vector := 0.25, reliability := 0.20
    recency := 0.15, frequency := 0.05 }

def Weights.total (w : Weights) : ℝ :=
  w.keyword + w.vector + w.reliability + w.recency + w.frequency

/-- A result dictionary after `result.update(scores)` in `rank`: the original
fields remain, and the five score fields plus `"score"` now hold the
normalised real-valued scores written by `_calculate_scores`. -/
structure RankedResult where
  base : RetrievalResult
  keyword_score : ℝ
  vector_score : ℝ
  reliability_score : ℝ
  recency_score : ℝ
  frequency_score : ℝ
  score : ℝ

/-- `HybridRanker._calculate_scores` followed by `result.update(scores)`. -/
noncomputable def calculateScores (w : Weights) (r : RetrievalResult) : RankedResult :=
  let keyword_score := normalizeKeywordScore ((r.keyword_score.getD 0 : ℚ) : ℝ)
  let vector_score := normalizeVectorScore ((r.vector_score.getD 0 : ℚ) : ℝ)
  let reliability_score := ((r.reliability.getD (1/2) : ℚ) : ℝ)
  let recency_score := calculateRecencyScore r.created_at
  let frequency_score := calculateFrequencyScore (r.access_count.getD 0)
  { base := r
    keyword_score := keyword_score
    vector_score := vector_score
    reliability_score := reliability_score
    recency_score := recency_score
    frequency_score := frequency_score
    score :=
      w.keyword * keyword_score +
      w.vector * vector_score +
      w.reliability * reliability_score +
      w.recency * recency_score +
      w.frequency * frequency_score }

/-- Stable descending insertion by `score`; together with `sortByScoreDesc`
this models Python's stable `list.sort(key=lambda x: x["score"],
reverse=True)`: an element is placed before the first earlier-inserted
element whose score it strictly exceeds, so equal scores keep input order. -/
noncomputable def insertDesc (r : RankedResult) : List RankedResult → List RankedResult
  | [] => [r]
  | x :: xs => if r.score ≥ x.score then r :: x :: xs else x :: insertDesc r xs

noncomputable def sortByScoreDesc (l : List RankedResult) : List RankedResult :=
  l.foldr insertDesc []

/-- `HybridRanker.rank`. -/
noncomputable def rank (w : Weights) (results : List RetrievalResult)
    (dedup : Bool := true) : List RankedResult :=
  match results with
  | [] => []
  | _ =>
    let results := if dedup then deduplicate results else results
    sortByScoreDesc (results.map (calculateScores w))

end Jyntrix

namespace Jyntrix

/-- The keyword-strategy duplicate of the spec's example scenario B, carrying
an overall strategy score of 0.5. -/
def exKeywordResult : RetrievalResult :=
  { memory_id := some "m", match_type := some "keyword", score := some 0.5
    keyword_score := some 0.2, vector_score := some 0
    reliability_score := none, recency_score := none, frequency_score := none
    reliability := none, created_at := none, access_count := none }

/-- The vector-strategy duplicate of the spec's example scenario B, carrying
an overall strategy score of 0.3 (lower than the keyword duplicate's). -/
def exVectorResult : RetrievalResult :=
  { memory_id := some "m", match_type := some "vector", score := some 0.3
    keyword_score := some 0, vector_score := some 0.8
    reliability_score := none, recency_score := none, frequency_score := none
    reliability := none, created_at := none, access_count := none }

/-- When the later duplicate carries the lower overall score (0.3 < 0.5),
`_deduplicate` keeps the stored record unchanged and discards the
duplicate entirely — no merge happens. -/
lemma dedup_pair_keeps_higher :
    deduplicate [exKeywordResult, exVectorResult] = [exKeywordResult] := by
  simp [deduplicate, dedupStep, truthyStr, getScore, exKeywordResult, exVectorResult,
    show ¬((0.5 : ℚ) < 0.3) by norm_num]

/-! ## Context builder (`core/context_builder.py`)

The builder is parameterised by the token-counting function
`count : String → ℕ` (an abstract `TokenCounter.count`); `fallbackCount`
below is the tokenizer-unavailable fallback `len(text) // 4` used for
concrete evaluations.  A memory dictionary enters the builder only through
`memory_type` (bucketing) and `content` (token accounting); the remaining
fields are copied verbatim into the constructed memory objects and do not
influence packing, budgets or totals, so a packed section is modelled by the
list of packed `content` strings. -/

/-- The token-accounting-relevant part of a memory result dictionary. -/
structure MemResult where
  memory_type : Option String
  content : Option String
  deriving DecidableEq, Repr

/-- `memory.get("memory_type", "semantic")`. -/
def memType (m : MemResult) : String := m.memory_type.getD "semantic"

/-- `mem.get("content", "")`. -/
def contentOf (m : MemResult) : String := m.content.getD ""

/-- `TokenCounter.count`'s deterministic fallback: 0 for empty text,
`len(text) // 4` otherwise. -/
def fallbackCount (text : String) : ℕ := if text = "" then 0 else text.length / 4

/-- `ContextBuilder._categorize_memories`, one bucket at a time: the bucket
for type `t` collects, in order, the memories whose (defaulted) type is `t`;
memories of an unknown type are dropped. -/
def categorize (mems : List MemResult) (t : String) : List MemResult :=
  mems.filter fun m => memType m = t

/-- The greedy packing loop shared verbatim by the four
`ContextBuilder._build_*_section` methods: walk the bucket in rank order
keeping a running token count, and `break` at the first item whose addition
would exceed the budget. -/
def packGo (count : String → ℕ) (budget : ℕ) : List MemResult → ℕ → List String
  | [], _ => []
  | m :: rest, cur =>
    let content := contentOf m
    let tokens := count content
    if cur + tokens > budget then []
    else content :: packGo count budget rest (cur + tokens)

/-- `ContextBuilder._build_profile_section` (content strings of the packed
`ProfileMemory` objects). -/
def buildProfileSection (count : String → ℕ) (mems : List MemResult)
    (budget : ℕ) : List String :=
  packGo count budget mems 0

/-- `ContextBuilder._build_semantic_section`. -/
def buildSemanticSection (count : String → ℕ) (mems : List MemResult)
    (budget : ℕ) : List String :=
  packGo count budget mems 0

/-- `ContextBuilder._build_episodic_section`. -/
def buildEpisodicSection (count : String → ℕ) (mems : List MemResult)
    (budget : ℕ) : List String :=
  packGo count budget mems 0

/-- `ContextBuilder._build_procedural_section`. -/
def buildProceduralSection (count : String → ℕ) (mems : List MemResult)
    (budget : ℕ) : List String :=
  packGo count budget mems 0

/-- Python's whitespace class (`str.split`, `\s`). -/
def pyIsSpace (c : Char) : Bool :=
  c = ' ' || c = '\t' || c = '\n' || c = '\r' || c = '\x0b' || c = '\x0c'

/-- Maximal runs of characters satisfying `p` (`acc` holds the reversed
current run). -/
def runsAux (p : Char → Bool) : List Char → List Char → List (List Char)
  | [], acc => if acc = [] then [] else [acc.reverse]
  | c :: cs, acc =>
    if p c then runsAux p cs (c :: acc)
    else if acc = [] then runsAux p cs [] else acc.reverse :: runsAux p cs []

/-- Python `text.split()`: the maximal runs of non-whitespace characters. -/
def pySplit (s : String) : List String :=
  (runsAux (fun c => !pyIsSpace c) s.toList []).map String.mk

def joinSpace (ws : List String) : String :=
  String.mk (List.intercalate [' '] (ws.map String.toList))

/-- The binary-search loop of `ContextBuilder._truncate_to_tokens`. -/
def truncSearch (count : String → ℕ) (words : List String) (maxTokens : ℕ)
    (low high : ℕ) : ℕ :=
  if h : low < high then
    let mid := (low + high + 1) / 2
    if count (joinSpace (words.take mid)) ≤ maxTokens then
      truncSearch count words maxTokens mid high
    else
      truncSearch count words maxTokens low (mid - 1)
  else low
  termination_by high - low
  decreasing_by all_goals omega

/-- `ContextBuilder._truncate_to_tokens`. -/
def truncateToTokens (count : String → ℕ) (text : String) (maxTokens : ℕ) :
    String :=
  if text = "" then ""
  else if count text ≤ maxTokens then text
  else
    let words := pySplit text
    joinSpace (words.take (truncSearch count words maxTokens 0 words.length)) ++ "..."

/-- `ContextBuilder._calculate_total_tokens` (sections given by their packed
content strings; a falsy entity context contributes nothing). -/
def calculateTotalTokens (count : String → ℕ)
    (profile semantic episodic procedural : List String)
    (entity : Option String) : ℕ :=
  (profile.map count).sum + (semantic.map count).sum +
    (episodic.map count).sum + (procedural.map count).sum +
    (match truthyStr entity with | none => 0 | some e => count e)

/-- The token budgets held by a builder instance; defaults from
`config.py`. -/
structure Budgets where
  max_tokens : ℕ
  profile : ℕ
  semantic : ℕ
  episodic : ℕ
  procedural : ℕ
  entity : ℕ
  history : ℕ
  deriving DecidableEq, Repr

def defaultBudgets : Budgets :=
  { max_tokens := 5000, profile := 600, semantic := 1500, episodic := 1500
    procedural := 400, entity := 300, history := 300 }

/-- The `MemoryContext` fields the builder computes (each section modelled by
its packed content strings). -/
structure MemoryContext where
  profile_memories : List String
  semantic_memories : List String
  episodic_memories : List String
  procedural_memories : List String
  entity_context : Option String
  total_tokens : ℕ
  truncated : Bool
  deriving DecidableEq, Repr

/-- `max_tokens or self.max_tokens`: `None` and `0` are falsy. -/
def effectiveMax (b : Budgets) : Option ℕ → ℕ
  | none => b.max_tokens
  | some m => if m = 0 then b.max_tokens else m

/-- `ContextBuilder.build`. -/
def build (count : String → ℕ) (b : Budgets) (mems : List MemResult)
    (maxTokens : Option ℕ) (entity : Option String) : MemoryContext :=
  let maxT := effectiveMax b maxTokens
  let profile := buildProfileSection count (categorize mems "profile") b.profile
  let semantic := buildSemanticSection count (categorize mems "semantic") b.semantic
  let episodic := buildEpisodicSection count (categorize mems "episodic") b.episodic
  let procedural :=
    buildProceduralSection count (categorize mems "procedural") b.procedural
  let entity' :=
    match truthyStr entity with
    | none => entity
    | some e => some (truncateToTokens count e b.entity)
  let total := calculateTotalTokens count profile semantic episodic procedural entity'
  { profile_memories := profile, semantic_memories := semantic
    episodic_memories := episodic, procedural_memories := procedural
    entity_context := entity'
    total_tokens := min total maxT
    truncated := decide (total > maxT) }

/-- `category_sizes` as computed by `AdaptiveContextBuilder.build`: exactly
the four content categories, in dictionary insertion order. -/
def sizesList (count : String → ℕ) (mems : List MemResult) :
    List (String × ℕ) :=
  [("profile", ((categorize mems "profile").map fun m => count (contentOf m)).sum),
   ("semantic", ((categorize mems "semantic").map fun m => count (contentOf m)).sum),
   ("episodic", ((categorize mems "episodic").map fun m => count (contentOf m)).sum),
   ("procedural", ((categorize mems "procedural").map fun m => count (contentOf m)).sum)]

/-- `base_budgets` of `AdaptiveContextBuilder._reallocate_budgets`, in
dictionary insertion order (note: `entity` has a base budget but no entry in
`category_sizes`). -/
def baseBudgetsList (b : Budgets) : List (String × ℕ) :=
  [("profile", b.profile), ("semantic", b.semantic), ("episodic", b.episodic),
   ("procedural", b.procedural), ("entity", b.entity)]

/-- `AdaptiveContextBuilder._reallocate_budgets`.  The source accumulates
`unused` and `need_more` in one pass over `base_budgets.items()`; the two
folds below walk the same list in the same order. -/
def reallocateBudgets (b : Budgets) (sizes : List (String × ℕ)) :
    List (String × ℕ) :=
  let base := baseBudgetsList b
  let unused := base.foldl
    (fun acc p =>
      match sizes.lookup p.1 with
      | some d => if d < p.2 then acc + (p.2 - d) else acc
      | none => acc) 0
  let needMore := base.foldl
    (fun acc p =>
      match sizes.lookup p.1 with
      | some d => if d > p.2 then acc ++ [p.1] else acc
      | none => acc) ([] : List String)
  if unused > 0 ∧ needMore ≠ [] then
    let extra := unused / needMore.length
    base.map fun p => if p.1 ∈ needMore then (p.1, p.2 + extra) else p
  else base

/-- Direct dictionary indexing `budgets[cat]` (every key is present). -/
def budgetOf (l : List (String × ℕ)) (c : String) : ℕ := (l.lookup c).getD 0

/-- `AdaptiveContextBuilder.build`. -/
def adaptiveBuild (count : String → ℕ) (b : Budgets) (mems : List MemResult)
    (maxTokens : Option ℕ) (entity : Option String) : MemoryContext :=
  let maxT := effectiveMax b maxTokens
  let budgets := reallocateBudgets b (sizesList count mems)
  let profile :=
    buildProfileSection count (categorize mems "profile") (budgetOf budgets "profile")
  let semantic :=
    buildSemanticSection count (categorize mems "semantic") (budgetOf budgets "semantic")
  let episodic :=
    buildEpisodicSection count (categorize mems "episodic") (budgetOf budgets "episodic")
  let procedural :=
    buildProceduralSection count (categorize mems "procedural")
      (budgetOf budgets "procedural")
  let entity' :=
    match truthyStr entity with
    | none => entity
    | some e =>
        some (truncateToTokens count e ((budgets.lookup "entity").getD b.entity))
  let total := calculateTotalTokens count profile semantic episodic procedural entity'
  { profile_memories := profile, semantic_memories := semantic
    episodic_memories := episodic, procedural_memories := procedural
    entity_context := entity'
    total_tokens := total
    truncated := decide (total > maxT) }

/-! ## Query analyzer (`core/query_analyzer.py`)

The intent / time-reference patterns are fixed regular expressions over the
lowercased query; each is an alternation of literal words or phrases wrapped
in `\b...\b` (or anchored with `^`), plus one numeric date pattern.  They
are embedded as explicit word-boundary matchers below: every literal in the
source patterns begins and ends with a word character (`[a-zA-Z0-9_]`), so
`\bL\b` matches exactly an occurrence of `L` preceded and followed by a
non-word character or the string edge.  Topic and entity extraction
(`_extract_topics`, `_detect_entities`) feed only the `topics` and
`entities_mentioned` fields, which no claim constrains; they are not
modelled. -/

/-- Regex `\w` (ASCII). -/
def isWordChar (c : Char) : Bool := c.isAlphanum || c = '_'

/-- `w` is a prefix of `s` and the first character of `s` after `w` (if any)
is a non-word character: the literal followed by a `\b` boundary. -/
def boundaryPrefix : List Char → List Char → Bool
  | [], [] => true
  | [], c :: _ => !isWordChar c
  | _ :: _, [] => false
  | c :: w, d :: s => c = d && boundaryPrefix w s

/-- Scan every position of `s` that is preceded by a non-word character (or
the string start) and test `p` on the suffix there: the `\b(...)` search. -/
def scanPositions (p : List Char → Bool) : List Char → Bool → Bool
  | s, prevWord =>
    ((!prevWord) && p s) ||
      match s with
      | [] => false
      | c :: rest => scanPositions p rest (isWordChar c)

/-- `re.search(r"\bw\b", s)` for a literal `w` starting and ending in word
characters (internal spaces are matched literally). -/
def containsWord (s w : String) : Bool :=
  scanPositions (boundaryPrefix w.toList) s.toList false

def containsAnyWord (s : String) (ws : List String) : Bool :=
  ws.any (containsWord s)

/-- `re.search(r"^(w)\b", s)` for a literal alternative `w`. -/
def startsWithWord (s w : String) : Bool := boundaryPrefix w.toList s.toList

def startsWithAnyWord (s : String) (ws : List String) : Bool :=
  ws.any (startsWithWord s)

/-- `\?$`: a question mark at the end of the string (or before a final
newline). -/
def endsWithQMark (s : String) : Bool :=
  match s.toList.reverse with
  | '?' :: _ => true
  | '\n' :: '?' :: _ => true
  | _ => false

/-- Leading digit run of a character list, with the remainder. -/
def countDigits : List Char → ℕ × List Char
  | [] => (0, [])
  | c :: cs =>
    if c.isDigit then
      let (n, r) := countDigits cs
      (n + 1, r)
    else (0, c :: cs)

/-- The source's numeric date alternative (digit runs separated by slash or
hyphen, in word boundaries) tested at one boundary position: with
backtracking resolved, a maximal digit run of length 1–2, a slash or hyphen,
another run of length 1–2, a slash or hyphen, then a maximal run of length
2–4 followed by a boundary. -/
def dateAt (s : List Char) : Bool :=
  let (n, r1) := countDigits s
  (decide (1 ≤ n) && decide (n ≤ 2)) &&
    match r1 with
    | c :: r2 =>
      (c = '/' || c = '-') &&
        (let (p, r3) := countDigits r2
         (decide (1 ≤ p) && decide (p ≤ 2)) &&
           match r3 with
           | d :: r4 =>
             (d = '/' || d = '-') &&
               (let (m, r5) := countDigits r4
                (decide (2 ≤ m) && decide (m ≤ 4)) &&
                  match r5 with
                  | [] => true
                  | e :: _ => !isWordChar e)
           | [] => false)
    | [] => false

def matchesDate (s : String) : Bool := scanPositions dateAt s.toList false

/-- `QueryAnalyzer.recall_patterns`: four patterns, each an alternation of
word-bounded literals. -/
def recallMatch (s : String) : Bool :=
  containsAnyWord s
      ["remember", "recall", "told", "said", "mentioned", "discussed",
       "talked about"] ||
  containsAnyWord s ["last time", "before", "previously", "earlier", "when did"] ||
  containsAnyWord s ["what was", "what were", "what did"] ||
  containsAnyWord s
      ["my favorite", "my preference", "my choice",
       "our favorite", "our preference", "our choice"]

/-- After the whitespace of the polite-command pattern: one of the four
verbs with a trailing boundary, possibly after further whitespace (the
backtracking of a greedy whitespace run). -/
def commandVerbAfterSpaces : List Char → Bool
  | [] => false
  | c :: cs =>
    ["create", "make", "write", "help"].any
        (fun v => boundaryPrefix v.toList (c :: cs)) ||
      (pyIsSpace c && commandVerbAfterSpaces cs)

/-- At least one whitespace character, then a command verb. -/
def commandAfterLead : List Char → Bool
  | [] => false
  | c :: cs => pyIsSpace c && commandVerbAfterSpaces cs

/-- The anchored polite-command alternative of `command_patterns`: one of
the lead phrases at the string start, whitespace, then one of the four
verbs in a trailing word boundary. -/
def commandPhraseMatch (s : String) : Bool :=
  ["please", "can you", "could you", "would you"].any fun lead =>
    lead.toList.isPrefixOf s.toList &&
      commandAfterLead (s.toList.drop lead.length)

/-- `QueryAnalyzer.command_patterns`. -/
def commandMatch (s : String) : Bool :=
  startsWithAnyWord s
      ["create", "make", "build", "write", "generate", "add", "update",
       "delete", "remove"] ||
  startsWithAnyWord s ["set", "configure", "change", "modify", "fix", "solve", "help"] ||
  commandPhraseMatch s

/-- `QueryAnalyzer.question_patterns`. -/
def questionMatch (s : String) : Bool :=
  startsWithAnyWord s
      ["what", "who", "where", "when", "why", "how", "which", "can", "could",
       "would", "should", "is", "are", "do", "does"] ||
  endsWithQMark s ||
  containsAnyWord s ["explain", "describe", "tell me about", "define"]

/-- `QueryAnalyzer._detect_intent`: recall patterns first, then command,
then question; first match wins; default `"conversation"`. -/
def detectIntent (s : String) : String :=
  if recallMatch s then "recall"
  else if commandMatch s then "command"
  else if questionMatch s then "question"
  else "conversation"

/-- `QueryAnalyzer._detect_time_reference`: first matching `(pattern, label)`
pair in order. -/
def detectTimeReference (s : String) : Option String :=
  if containsAnyWord s ["today", "now", "currently"] then some "present"
  else if containsAnyWord s ["yesterday", "last night"] then some "recent"
  else if containsAnyWord s ["last week", "past week"] then some "week"
  else if containsAnyWord s ["last month", "past month"] then some "month"
  else if containsAnyWord s ["last year", "past year"] then some "year"
  else if matchesDate s then some "specific_date"
  else if containsAnyWord s
      ["january", "february", "march", "april", "may", "june", "july",
       "august", "september", "october", "november", "december"] then
    some "month_name"
  else none

/-- Python `str.lower()` (ASCII; the analysed queries are ASCII). -/
def pyLower (s : String) : String := String.mk (s.toList.map Char.toLower)

/-- Python `str.strip()`. -/
def pyStrip (s : String) : String :=
  String.mk (((s.toList.dropWhile pyIsSpace).reverse.dropWhile pyIsSpace).reverse)

/-- Maximal word-character runs of a string: the matches of
`re.findall(r"\b\w+\b", s)`. -/
def wordRuns (s : List Char) : List (List Char) := runsAux isWordChar s []

/-- The stopword set of `QueryAnalyzer.__init__` (the source set literal
repeats a few members; the set is what matters). -/
def stopwords : List String :=
  ["a", "an", "and", "are", "as", "at", "be", "by", "for", "from",
   "has", "he", "in", "is", "it", "its", "of", "on", "that", "the",
   "to", "was", "were", "will", "with", "this", "they", "their",
   "what", "when", "where", "which", "while", "who", "whom", "why",
   "would", "could", "should", "have", "had", "been", "being",
   "can", "do", "does", "did", "done", "i", "me", "my", "myself",
   "we", "our", "ours", "you", "your", "yours", "him", "his",
   "she", "her", "hers", "them", "theirs", "please",
   "thanks", "thank", "hello", "hi", "hey"]

/-- Order-preserving deduplication (Python's `seen`-set loop). -/
def dedupePreserve (l : List String) : List String :=
  l.foldl (fun acc w => if w ∈ acc then acc else acc ++ [w]) []

/-- `QueryAnalyzer._extract_keywords`. -/
def extractKeywords (query : String) : List String :=
  let words := (wordRuns (pyLower query).toList).map fun cs => String.mk cs
  let keywords := words.filter fun w => w ∉ stopwords ∧ w.length > 2
  (dedupePreserve keywords).take 15

/-- `needle` occurs as a contiguous sublist of `haystack`. -/
def listIsInfix (needle : List Char) : List Char → Bool
  | [] => needle.isPrefixOf []
  | c :: t => needle.isPrefixOf (c :: t) || listIsInfix needle t

/-- Python `needle in haystack` for strings: substring containment. -/
def pyInStr (needle haystack : String) : Bool :=
  listIsInfix needle.toList haystack.toList

/-- `QueryAnalyzer._requires_memory`. -/
def requiresMemory (intent : String) (query : String) : Bool :=
  if intent = "recall" then true
  else if intent = "command" then
    ["my", "prefer", "usual", "always", "like"].any fun h => pyInStr h query
  else if intent = "question" then
    ["my", "i", "me", "we", "our"].any fun h => (pySplit query).contains h
  else true

/-- `QueryAnalyzer._determine_memory_types`. -/
def determineMemoryTypes (intent : String) (query : String) : List String :=
  if intent = "recall" then ["profile", "semantic", "episodic", "procedural"]
  else if intent = "question" then
    ["semantic", "profile"] ++
      (if pyInStr "how" query || pyInStr "process" query || pyInStr "step" query
       then ["procedural"] else [])
  else if intent = "command" then ["procedural", "profile"]
  else ["episodic", "semantic", "profile"]

/-- `QueryAnalyzer._calculate_confidence` (exact decimal arithmetic). -/
def calculateConfidence (intent : String) (keywords : List String)
    (query : String) : ℚ :=
  let c1 : ℚ := 0.5
  let c2 := if keywords.length ≥ 3 then c1 + 0.1 else c1
  let c3 := if keywords.length ≥ 5 then c2 + 0.1 else c2
  let c4 :=
    if intent = "recall" then c3 + 0.2
    else if intent = "question" then c3 + 0.15
    else if intent = "command" then c3 + 0.15
    else c3
  let words := (pySplit query).length
  let c5 :=
    if 5 ≤ words ∧ words ≤ 30 then c4 + 0.1
    else if words > 30 then c4 - 0.1
    else c4
  min 1 (max 0 c5)

/-- The fields of `QueryAnalysis` computed by `QueryAnalyzer.analyze`
(`topics` and `entities_mentioned` are not modelled, see above). -/
structure QueryAnalysis where
  original_query : String
  intent : String
  keywords : List String
  time_reference : Option String
  requires_memory : Bool
  memory_types_needed : List String
  confidence : ℚ
  deriving DecidableEq, Repr

/-- `QueryAnalyzer.analyze`. -/
def analyze (query : String) : QueryAnalysis :=
  let query_lower := pyStrip (pyLower query)
  let intent := detectIntent query_lower
  let keywords := extractKeywords query
  { original_query := query
    intent := intent
    keywords := keywords
    time_reference := detectTimeReference query_lower
    requires_memory := requiresMemory intent query_lower
    memory_types_needed := determineMemoryTypes intent query_lower
    confidence := calculateConfidence intent keywords query_lower }

/-! ## Theorems for the query-analyzer claims -/

/-- Claim C6: the intent pattern groups are tested in a fixed order (recall,
then command, then question) with the first match winning and
`"conversation"` as the default — in particular a query matching both recall
and question patterns is classified recall — and on the query
`"What did I tell you about my dog last week?"` the analysis has intent
recall, time reference week, `requires_memory` true, and
`memory_types_needed` equal to all four memory kinds. -/
theorem C6_intent_order_and_scenarioA :
    (∀ q, recallMatch q = true → detectIntent q = "recall") ∧
    (∀ q, recallMatch q = false → commandMatch q = true →
      detectIntent q = "command") ∧
    (∀ q, recallMatch q = false → commandMatch q = false →
      questionMatch q = true → detectIntent q = "question") ∧
    (∀ q, recallMatch q = false → commandMatch q = false →
      questionMatch q = false → detectIntent q = "conversation") ∧
    (analyze "What did I tell you about my dog last week?").intent = "recall" ∧
    (analyze "What did I tell you about my dog last week?").time_reference =
      some "week" ∧
    (analyze "What did I tell you about my dog last week?").requires_memory =
      true ∧
    (analyze "What did I tell you about my dog last week?").memory_types_needed =
      ["profile", "semantic", "episodic", "procedural"] := by
  refine ⟨?_, ?_, ?_, ?_, by decide, by decide, by decide, by decide⟩
  · intro q h; simp [detectIntent, h]
  · intro q h1 h2; simp [detectIntent, h1, h2]
  · intro q h1 h2 h3; simp [detectIntent, h1, h2, h3]
  · intro q h1 h2 h3; simp [detectIntent, h1, h2, h3]

/-- Witness for C6: a query matching both a recall pattern (`"remember"`)
and a question pattern (trailing question mark) is classified recall, and a
query matching no group at all falls through to conversation. -/
theorem C6_witness :
    detectIntent "remember the plan?" = "recall" ∧
    detectIntent "nice weather, friend" = "conversation" :=
  ⟨C6_intent_order_and_scenarioA.1 _ (by decide),
   C6_intent_order_and_scenarioA.2.2.2.1 _ (by decide) (by decide) (by decide)⟩

lemma toLower_of_pyIsSpace {c : Char} (h : pyIsSpace c = true) :
    Char.toLower c = c := by
  simp only [pyIsSpace, Bool.or_eq_true, decide_eq_true_eq] at h
  rcases h with ((((h | h) | h) | h) | h) | h <;> subst h <;> decide

lemma not_isWordChar_of_pyIsSpace {c : Char} (h : pyIsSpace c = true) :
    isWordChar c = false := by
  simp only [pyIsSpace, Bool.or_eq_true, decide_eq_true_eq] at h
  rcases h with ((((h | h) | h) | h) | h) | h <;> subst h <;> decide

lemma runsAux_eq_nil (p : Char → Bool) :
    ∀ l : List Char, (∀ c ∈ l, p c = false) → runsAux p l [] = [] := by
  intro l
  induction l with
  | nil => intro _; rfl
  | cons c cs ih =>
    intro h
    simp only [runsAux, h c (by simp), Bool.false_eq_true, if_neg, if_pos]
    exact ih fun d hd => h d (by simp [hd])

/-- Claim C8: on an empty or pure-whitespace query, `analyze` returns (with
no failure — it is a total function) a conversation-intent analysis with an
empty keyword list and the low confidence value 0.5. -/
theorem C8_blank_query (q : String) (h : ∀ c ∈ q.toList, pyIsSpace c = true) :
    (analyze q).intent = "conversation" ∧ (analyze q).keywords = [] ∧
    (analyze q).confidence = 0.5 := by
  have hlow : (pyLower q).toList = q.toList := by
    show q.toList.map Char.toLower = q.toList
    have : q.toList.map Char.toLower = q.toList.map id :=
      List.map_congr_left fun c hc => toLower_of_pyIsSpace (h c hc)
    rw [this, List.map_id]
  have hdrop : q.toList.dropWhile pyIsSpace = [] :=
    List.dropWhile_eq_nil_iff.mpr fun c hc => by simp [h c hc]
  have hstrip : pyStrip (pyLower q) = "" := by
    show String.mk ((((pyLower q).toList.dropWhile pyIsSpace).reverse.dropWhile
      pyIsSpace).reverse) = ""
    rw [hlow, hdrop]
    rfl
  have hkw : extractKeywords q = [] := by
    have hw : wordRuns (pyLower q).toList = [] := by
      unfold wordRuns
      rw [hlow]
      exact runsAux_eq_nil _ _ fun c hc => not_isWordChar_of_pyIsSpace (h c hc)
    unfold extractKeywords
    rw [hw]
    rfl
  have hint : (analyze q).intent = "conversation" := by
    show detectIntent (pyStrip (pyLower q)) = "conversation"
    rw [hstrip]; decide
  refine ⟨hint, ?_, ?_⟩
  · exact hkw
  · show calculateConfidence (detectIntent (pyStrip (pyLower q)))
      (extractKeywords q) (pyStrip (pyLower q)) = 0.5
    rw [hstrip, hkw, show detectIntent "" = "conversation" from by decide]
    simp only [calculateConfidence, pySplit, runsAux]
    rw [if_neg (show ¬("conversation" : String) = "recall" from by decide),
      if_neg (show ¬("conversation" : String) = "question" from by decide),
      if_neg (show ¬("conversation" : String) = "command" from by decide)]
    norm_num [min_def, max_def]

/-- Witness for C8: the pure-whitespace query consisting of one space. -/
theorem C8_witness :
    (analyze " ").intent = "conversation" ∧ (analyze " ").keywords = [] ∧
    (analyze " ").confidence = 0.5 :=
  C8_blank_query " " (by decide)

/-- Claim C9: for every query, the analysis satisfies the invariant that
`memory_types_needed` is non-empty whenever `requires_memory` is true (in
fact every branch of `_determine_memory_types` returns a non-empty list). -/
theorem C9_types_nonempty (q : String)
    (_h : (analyze q).requires_memory = true) :
    (analyze q).memory_types_needed ≠ [] := by
  show determineMemoryTypes _ _ ≠ []
  unfold determineMemoryTypes
  split_ifs <;> simp

/-- Witness for C9: a plain conversational query requires memory and indeed
gets a non-empty memory-type recommendation. -/
theorem C9_witness : (analyze "hello there").memory_types_needed ≠ [] :=
  C9_types_nonempty "hello there" (by decide)

/-! ## Theorems for the context-builder claims -/

/-- Token counts of a memory bucket, in order. -/
def tokensOf (count : String → ℕ) (mems : List MemResult) : List ℕ :=
  mems.map fun m => count (contentOf m)

lemma sum_take_mono (l : List ℕ) :
    ∀ {i j : ℕ}, i ≤ j → (l.take i).sum ≤ (l.take j).sum := by
  induction l with
  | nil => intro i j _; simp
  | cons x xs ih =>
    intro i j hij
    cases i with
    | zero => simp
    | succ i =>
      cases j with
      | zero => omega
      | succ j =>
        simp only [List.take_succ_cons, List.sum_cons]
        exact Nat.add_le_add_left (ih (Nat.succ_le_succ_iff.mp hij)) x

lemma packGo_spec (count : String → ℕ) (budget : ℕ) :
    ∀ (mems : List MemResult) (cur : ℕ), cur ≤ budget →
    ∃ k, k ≤ mems.length ∧
      packGo count budget mems cur = (mems.map contentOf).take k ∧
      cur + ((tokensOf count mems).take k).sum ≤ budget ∧
      (k < mems.length →
        budget < cur + ((tokensOf count mems).take (k + 1)).sum) := by
  intro mems
  induction mems with
  | nil =>
    intro cur h
    exact ⟨0, by simp, by simp [packGo], by simpa, by simp⟩
  | cons m rest ih =>
    intro cur h
    by_cases hb : cur + count (contentOf m) > budget
    · refine ⟨0, by simp, ?_, by simpa, ?_⟩
      · simp [packGo, hb]
      · intro _
        simpa [tokensOf] using hb
    · push_neg at hb
      obtain ⟨k, hk, heq, hsum, hover⟩ := ih (cur + count (contentOf m)) hb
      refine ⟨k + 1, by simpa using hk, ?_, ?_, ?_⟩
      · simp [packGo, not_lt.mpr hb, heq]
      · simpa [tokensOf, Nat.add_assoc] using hsum
      · intro hlt
        have := hover (by simpa using hlt)
        simpa [tokensOf, Nat.add_assoc] using this

/-- Claim C4: for every category bucket, token budget and token counter, the
profile and episodic section packers (all four packers run the identical
loop) return exactly the maximal prefix of the bucket, in rank order, whose
cumulative token count stays within the budget: the packed list is a prefix,
its token sum is within budget, packing stops at the first item whose
addition would exceed the budget, and no longer prefix fits — so no later
item is included even if it would individually fit. -/
theorem C4_greedy_prefix (count : String → ℕ) (budget : ℕ)
    (mems : List MemResult) :
    ∃ k, k ≤ mems.length ∧
      buildProfileSection count mems budget = (mems.map contentOf).take k ∧
      buildEpisodicSection count mems budget = (mems.map contentOf).take k ∧
      ((tokensOf count mems).take k).sum ≤ budget ∧
      (k < mems.length → budget < ((tokensOf count mems).take (k + 1)).sum) ∧
      (∀ j ≤ mems.length, ((tokensOf count mems).take j).sum ≤ budget →
        j ≤ k) := by
  obtain ⟨k, hk, heq, hsum, hover⟩ :=
    packGo_spec count budget mems 0 (Nat.zero_le budget)
  refine ⟨k, hk, heq, heq, by simpa using hsum, ?_, ?_⟩
  · intro hlt
    simpa using hover hlt
  · intro j _ hj
    by_contra hjk
    push_neg at hjk
    have h1 : budget < ((tokensOf count mems).take (k + 1)).sum := by
      simpa using hover (by omega)
    have h2 : ((tokensOf count mems).take (k + 1)).sum ≤
        ((tokensOf count mems).take j).sum :=
      sum_take_mono _ (by omega)
    omega

/-- Witness for C4: with the fallback token counter and budget 2, a bucket
whose items cost 1, 3 and 1 tokens packs exactly the first item — the third
would fit on its own but is not considered. -/
theorem C4_witness :
    ∃ k, k ≤ ([⟨some "profile", some "abcd"⟩, ⟨some "profile", some "abcdefghijkl"⟩,
        ⟨some "profile", some "efgh"⟩] : List MemResult).length ∧
      buildProfileSection fallbackCount
          [⟨some "profile", some "abcd"⟩, ⟨some "profile", some "abcdefghijkl"⟩,
           ⟨some "profile", some "efgh"⟩] 2 =
        (([⟨some "profile", some "abcd"⟩, ⟨some "profile", some "abcdefghijkl"⟩,
          ⟨some "profile", some "efgh"⟩] : List MemResult).map contentOf).take k ∧
      buildEpisodicSection fallbackCount
          [⟨some "profile", some "abcd"⟩, ⟨some "profile", some "abcdefghijkl"⟩,
           ⟨some "profile", some "efgh"⟩] 2 =
        (([⟨some "profile", some "abcd"⟩, ⟨some "profile", some "abcdefghijkl"⟩,
          ⟨some "profile", some "efgh"⟩] : List MemResult).map contentOf).take k ∧
      ((tokensOf fallbackCount
          [⟨some "profile", some "abcd"⟩, ⟨some "profile", some "abcdefghijkl"⟩,
           ⟨some "profile", some "efgh"⟩]).take k).sum ≤ 2 ∧
      (k < ([⟨some "profile", some "abcd"⟩, ⟨some "profile", some "abcdefghijkl"⟩,
          ⟨some "profile", some "efgh"⟩] : List MemResult).length →
        2 < ((tokensOf fallbackCount
          [⟨some "profile", some "abcd"⟩, ⟨some "profile", some "abcdefghijkl"⟩,
           ⟨some "profile", some "efgh"⟩]).take (k + 1)).sum) ∧
      (∀ j ≤ ([⟨some "profile", some "abcd"⟩, ⟨some "profile", some "abcdefghijkl"⟩,
          ⟨some "profile", some "efgh"⟩] : List MemResult).length,
        ((tokensOf fallbackCount
          [⟨some "profile", some "abcd"⟩, ⟨some "profile", some "abcdefghijkl"⟩,
           ⟨some "profile", some "efgh"⟩]).take j).sum ≤ 2 → j ≤ k) :=
  C4_greedy_prefix fallbackCount 2
    [⟨some "profile", some "abcd"⟩, ⟨some "profile", some "abcdefghijkl"⟩,
     ⟨some "profile", some "efgh"⟩]

lemma ite_add_form (c : Prop) [Decidable c] (a x : ℕ) :
    (if c then a + x else a) = a + (if c then x else 0) := by
  split <;> simp

set_option maxHeartbeats 2000000

/-- Claim C5: for every base-budget configuration and per-category content
demands, `_reallocate_budgets` pools the surplus (base minus demand) of
every content category whose demand is below its base budget and raises the
budget of each category whose demand exceeds its base by the pool divided
(evenly, by integer division) by the number of such categories, leaving all
other budgets — including the entity budget — unchanged; in particular, with
the default budgets, an empty procedural bucket, profile and semantic
exactly at their bases, and an overflowing episodic bucket, episodic's
budget is raised by the full unused procedural budget (1500 + 400 = 1900). -/
theorem C5_budget_reallocation :
    (∀ (b : Budgets) (dp ds de dpr : ℕ),
      reallocateBudgets b
          [("profile", dp), ("semantic", ds), ("episodic", de),
           ("procedural", dpr)] =
        (let pool :=
          (if dp < b.profile then b.profile - dp else 0) +
          (if ds < b.semantic then b.semantic - ds else 0) +
          (if de < b.episodic then b.episodic - de else 0) +
          (if dpr < b.procedural then b.procedural - dpr else 0)
         let n :=
          (if b.profile < dp then 1 else 0) + (if b.semantic < ds then 1 else 0) +
          (if b.episodic < de then 1 else 0) + (if b.procedural < dpr then 1 else 0)
         [("profile", b.profile + (if b.profile < dp then pool / n else 0)),
          ("semantic", b.semantic + (if b.semantic < ds then pool / n else 0)),
          ("episodic", b.episodic + (if b.episodic < de then pool / n else 0)),
          ("procedural",
            b.procedural + (if b.procedural < dpr then pool / n else 0)),
          ("entity", b.entity)])) ∧
    reallocateBudgets defaultBudgets
        [("profile", 600), ("semantic", 1500), ("episodic", 2000),
         ("procedural", 0)] =
      [("profile", 600), ("semantic", 1500), ("episodic", 1900),
       ("procedural", 400), ("entity", 300)] := by
  constructor
  · intro b dp ds de dpr
    unfold reallocateBudgets baseBudgetsList
    simp only [List.foldl, List.lookup, String.reduceBEq, beq_self_eq_true]
    by_cases h1 : b.profile < dp <;> by_cases h2 : b.semantic < ds <;>
      by_cases h3 : b.episodic < de <;> by_cases h4 : b.procedural < dpr <;>
      simp [h1, h2, h3, h4, ite_add_form] <;>
      (intro ha hb hc hd; split_ifs <;> simp_all)
  · decide

/-- Witness for C5: the scenario-D instance — default budgets, procedural
demand 0, profile and semantic at their bases, episodic over budget —
evaluated concretely: episodic's budget becomes 1900 = 1500 + 400. -/
theorem C5_witness :
    reallocateBudgets defaultBudgets
        [("profile", 600), ("semantic", 1500), ("episodic", 2000),
         ("procedural", 0)] =
      [("profile", 600), ("semantic", 1500), ("episodic", 1900),
       ("procedural", 400), ("entity", 300)] :=
  C5_budget_reallocation.2

/-- Claim C2 (amended): the base `ContextBuilder.build` clamps, with
`total_tokens = min(raw_sum, max_tokens) ≤ max_tokens` and
`truncated ↔ raw_sum > max_tokens`; the adaptive variant computes the same
`truncated` condition but returns `total_tokens = raw_sum` unclamped (the
raw sum being the summed token count of all packed sections as computed by
`_calculate_total_tokens`). -/
theorem C2_amended (count : String → ℕ) (b : Budgets) (mems : List MemResult)
    (maxTokens : Option ℕ) (entity : Option String) :
    ((build count b mems maxTokens entity).total_tokens =
      min
        (calculateTotalTokens count
          (build count b mems maxTokens entity).profile_memories
          (build count b mems maxTokens entity).semantic_memories
          (build count b mems maxTokens entity).episodic_memories
          (build count b mems maxTokens entity).procedural_memories
          (build count b mems maxTokens entity).entity_context)
        (effectiveMax b maxTokens) ∧
     (build count b mems maxTokens entity).total_tokens ≤
       effectiveMax b maxTokens ∧
     ((build count b mems maxTokens entity).truncated = true ↔
       effectiveMax b maxTokens <
         calculateTotalTokens count
           (build count b mems maxTokens entity).profile_memories
           (build count b mems maxTokens entity).semantic_memories
           (build count b mems maxTokens entity).episodic_memories
           (build count b mems maxTokens entity).procedural_memories
           (build count b mems maxTokens entity).entity_context)) ∧
    ((adaptiveBuild count b mems maxTokens entity).total_tokens =
      calculateTotalTokens count
        (adaptiveBuild count b mems maxTokens entity).profile_memories
        (adaptiveBuild count b mems maxTokens entity).semantic_memories
        (adaptiveBuild count b mems maxTokens entity).episodic_memories
        (adaptiveBuild count b mems maxTokens entity).procedural_memories
        (adaptiveBuild count b mems maxTokens entity).entity_context ∧
     ((adaptiveBuild count b mems maxTokens entity).truncated = true ↔
       effectiveMax b maxTokens <
         (adaptiveBuild count b mems maxTokens entity).total_tokens)) := by
  refine ⟨⟨rfl, min_le_right _ _, ?_⟩, rfl, ?_⟩
  · exact decide_eq_true_iff
  · exact decide_eq_true_iff

/-- The single semantic memory of the C2 counterexample: its content costs
two fallback tokens. -/
def c2Mems : List MemResult := [{ memory_type := some "semantic", content := some "abcdefgh" }]

/-- Counterexample to claim C2 as stated: with the default budgets and a
`max_tokens` override of 1, the adaptive builder packs a two-token semantic
memory and returns `total_tokens = 2`, which exceeds `max_tokens = 1` — so
`total_tokens` is not `min(raw_sum, max_tokens)` and not `≤ max_tokens` —
while the base builder on identical input does clamp to 1. -/
theorem C2_counterexample :
    (adaptiveBuild fallbackCount defaultBudgets c2Mems (some 1) none).total_tokens = 2 ∧
    effectiveMax defaultBudgets (some 1) = 1 ∧
    ¬((adaptiveBuild fallbackCount defaultBudgets c2Mems (some 1) none).total_tokens ≤
        effectiveMax defaultBudgets (some 1)) ∧
    (build fallbackCount defaultBudgets c2Mems (some 1) none).total_tokens = 1 := by
  decide

end Jyntrix

namespace Jyntrix

/-! ## Theorems for the hybrid-ranker claims -/

lemma clamp01_nonneg (x : ℝ) : 0 ≤ clamp01 x :=
  le_min (by norm_num) (le_max_left 0 x)

lemma clamp01_le_one (x : ℝ) : clamp01 x ≤ 1 := min_le_left 1 _

lemma clamp01_mono {x y : ℝ} (h : x ≤ y) : clamp01 x ≤ clamp01 y :=
  min_le_min le_rfl (max_le_max le_rfl h)

lemma normalizeKeywordScore_nonneg (x : ℝ) : 0 ≤ normalizeKeywordScore x := by
  unfold normalizeKeywordScore
  split
  · exact le_refl 0
  · exact clamp01_nonneg _

lemma normalizeKeywordScore_le_one (x : ℝ) : normalizeKeywordScore x ≤ 1 := by
  unfold normalizeKeywordScore
  split
  · norm_num
  · exact clamp01_le_one _

lemma normalizeVectorScore_nonneg (x : ℝ) : 0 ≤ normalizeVectorScore x :=
  clamp01_nonneg _

lemma normalizeVectorScore_le_one (x : ℝ) : normalizeVectorScore x ≤ 1 :=
  clamp01_le_one _

lemma calculateRecencyScore_nonneg (a : Option ℤ) :
    0 ≤ calculateRecencyScore a := by
  cases a with
  | none => norm_num [calculateRecencyScore]
  | some d => exact clamp01_nonneg _

lemma calculateRecencyScore_le_one (a : Option ℤ) :
    calculateRecencyScore a ≤ 1 := by
  cases a with
  | none => norm_num [calculateRecencyScore]
  | some d => exact clamp01_le_one _

lemma calculateFrequencyScore_nonneg (c : ℤ) :
    0 ≤ calculateFrequencyScore c := by
  unfold calculateFrequencyScore
  split
  · exact le_refl 0
  · exact clamp01_nonneg _

lemma calculateFrequencyScore_le_one (c : ℤ) :
    calculateFrequencyScore c ≤ 1 := by
  unfold calculateFrequencyScore
  split
  · norm_num
  · exact clamp01_le_one _

/-- Claim C7: `frequency_score` is monotonically non-decreasing in
`access_count` and equals 0 for non-positive counts; `recency_score` is
monotonically non-increasing in the age in days; and both scores always lie
in the interval from 0 to 1 (each score depends on no other input). -/
theorem C7_score_monotonicity :
    (∀ c1 c2 : ℤ, c1 ≤ c2 →
      calculateFrequencyScore c1 ≤ calculateFrequencyScore c2) ∧
    (∀ c : ℤ, c ≤ 0 → calculateFrequencyScore c = 0) ∧
    (∀ d1 d2 : ℤ, d1 ≤ d2 →
      calculateRecencyScore (some d2) ≤ calculateRecencyScore (some d1)) ∧
    (∀ c : ℤ, 0 ≤ calculateFrequencyScore c ∧ calculateFrequencyScore c ≤ 1) ∧
    (∀ a : Option ℤ, 0 ≤ calculateRecencyScore a ∧ calculateRecencyScore a ≤ 1) := by
  refine ⟨?_, ?_, ?_, fun c => ⟨calculateFrequencyScore_nonneg c,
    calculateFrequencyScore_le_one c⟩, fun a => ⟨calculateRecencyScore_nonneg a,
    calculateRecencyScore_le_one a⟩⟩
  · intro c1 c2 h
    by_cases hc1 : c1 ≤ 0
    · rw [show calculateFrequencyScore c1 = 0 by simp [calculateFrequencyScore, hc1]]
      exact calculateFrequencyScore_nonneg c2
    · have hc2 : ¬c2 ≤ 0 := by omega
      unfold calculateFrequencyScore
      rw [if_neg hc1, if_neg hc2]
      apply clamp01_mono
      have hpos1 : (0 : ℝ) < 1 + (c1 : ℝ) := by
        have : (1 : ℝ) ≤ (c1 : ℝ) := by exact_mod_cast (by omega : (1 : ℤ) ≤ c1)
        linarith
      have hnum : Real.log (1 + (c1 : ℝ)) ≤ Real.log (1 + (c2 : ℝ)) := by
        apply Real.log_le_log hpos1
        have : (c1 : ℝ) ≤ (c2 : ℝ) := by exact_mod_cast h
        linarith
      have hden : (0 : ℝ) < Real.log (1 + 1000) := Real.log_pos (by norm_num)
      exact (div_le_div_iff_of_pos_right hden).mpr hnum
  · intro c hc
    simp [calculateFrequencyScore, hc]
  · intro d1 d2 h
    unfold calculateRecencyScore
    apply clamp01_mono
    apply Real.exp_le_exp.mpr
    have hcast : (d1 : ℝ) ≤ (d2 : ℝ) := by exact_mod_cast h
    have hl : (0 : ℝ) ≤ Real.log 2 / 30 := by
      have := Real.log_pos (by norm_num : (1 : ℝ) < 2)
      positivity
    nlinarith

/-- Witness for C7 at concrete inputs: access counts 3 ≤ 5, a non-positive
count, ages 4 ≤ 10, and the range bounds at count 7 and a missing age. -/
theorem C7_witness :
    calculateFrequencyScore 3 ≤ calculateFrequencyScore 5 ∧
    calculateFrequencyScore (-2) = 0 ∧
    calculateRecencyScore (some 10) ≤ calculateRecencyScore (some 4) ∧
    (0 ≤ calculateFrequencyScore 7 ∧ calculateFrequencyScore 7 ≤ 1) ∧
    (0 ≤ calculateRecencyScore none ∧ calculateRecencyScore none ≤ 1) :=
  ⟨C7_score_monotonicity.1 3 5 (by decide),
   C7_score_monotonicity.2.1 (-2) (by decide),
   C7_score_monotonicity.2.2.1 4 10 (by decide),
   C7_score_monotonicity.2.2.2.1 7,
   C7_score_monotonicity.2.2.2.2 none⟩

/-- Claim C1 (amended): for a pair of retrieval results sharing the same
non-empty memory id, `_deduplicate` merges them only when the later result's
overall score strictly exceeds the stored one's; in that case the merged
record takes the field-wise maximum of the five score fields (and of
`"score"`) and, for two distinct truthy match types, the comma-joined sorted
pair; when the later score does not exceed, the stored record is kept
unchanged and the duplicate's fields are discarded.  Either way `rank` with
deduplication returns exactly one record for that memory id (the maxima
describe the record at the deduplication stage, before `rank`'s re-scoring
overwrites the score fields with normalised values). -/
theorem C1_dedup_merge_amended (r1 r2 : RetrievalResult) (m : String)
    (hm : m ≠ "") (h1 : r1.memory_id = some m) (h2 : r2.memory_id = some m) :
    (deduplicate [r1, r2] =
      if getScore r1 < getScore r2 then [mergeResults r1 r2] else [r1]) ∧
    (mergeResults r1 r2).keyword_score =
      some (max (r1.keyword_score.getD 0) (r2.keyword_score.getD 0)) ∧
    (mergeResults r1 r2).vector_score =
      some (max (r1.vector_score.getD 0) (r2.vector_score.getD 0)) ∧
    (mergeResults r1 r2).reliability_score =
      some (max (r1.reliability_score.getD 0) (r2.reliability_score.getD 0)) ∧
    (mergeResults r1 r2).recency_score =
      some (max (r1.recency_score.getD 0) (r2.recency_score.getD 0)) ∧
    (mergeResults r1 r2).frequency_score =
      some (max (r1.frequency_score.getD 0) (r2.frequency_score.getD 0)) ∧
    (mergeResults r1 r2).score =
      some (max (r1.score.getD 0) (r2.score.getD 0)) ∧
    (∀ t1 t2 : String, r1.match_type = some t1 → r2.match_type = some t2 →
      t1 ≠ "" → t2 ≠ "" → t1 ≠ t2 →
      (mergeResults r1 r2).match_type =
        some (if t1 < t2 then t1 ++ "," ++ t2 else t2 ++ "," ++ t1)) ∧
    (∀ w : Weights, (rank w [r1, r2] true).length = 1 ∧
      (rank w [r1, r2] true).map (fun x => x.base.memory_id) = [some m]) := by
  have hd : deduplicate [r1, r2] =
      if getScore r1 < getScore r2 then [mergeResults r1 r2] else [r1] := by
    by_cases hs : getScore r1 < getScore r2
    · rw [if_pos hs]
      simp [deduplicate, dedupStep, truthyStr, h1, h2, hm, hs, gt_iff_lt]
    · rw [if_neg hs]
      simp [deduplicate, dedupStep, truthyStr, h1, h2, hm, hs, gt_iff_lt]
  refine ⟨hd, rfl, rfl, rfl, rfl, rfl, rfl, ?_, ?_⟩
  · intro t1 t2 ht1 ht2 hn1 hn2 hne
    simp only [mergeResults, mergeMatchType, truthyStr, ht1, ht2, if_neg hn1,
      if_neg hn2, if_neg hne]
    split_ifs <;> rfl
  · intro w
    have hr : rank w [r1, r2] true =
        sortByScoreDesc ((deduplicate [r1, r2]).map (calculateScores w)) := by
      simp [rank]
    rw [hr, hd]
    by_cases hs : getScore r1 < getScore r2 <;>
      simp [hs, sortByScoreDesc, insertDesc, calculateScores, mergeResults, h1]

/-- Mirror of the spec's example scenario B with the duplicate scores
ordered so that the merge actually fires: the vector result arrives second
with the higher overall score (0.5 > 0.3). -/
def exKeywordResultLow : RetrievalResult :=
  { memory_id := some "m", match_type := some "keyword", score := some 0.3
    keyword_score := some 0.2, vector_score := some 0
    reliability_score := none, recency_score := none, frequency_score := none
    reliability := none, created_at := none, access_count := none }

def exVectorResultHigh : RetrievalResult :=
  { memory_id := some "m", match_type := some "vector", score := some 0.5
    keyword_score := some 0, vector_score := some 0.8
    reliability_score := none, recency_score := none, frequency_score := none
    reliability := none, created_at := none, access_count := none }

/-- Witness for C1: on the scenario-B pair ordered so the later duplicate
scores higher, deduplication produces the merged record, whose raw
keyword score is 0.2, raw vector score is 0.8, and match type is
`"keyword,vector"`. -/
theorem C1_witness :
    deduplicate [exKeywordResultLow, exVectorResultHigh] =
      [mergeResults exKeywordResultLow exVectorResultHigh] ∧
    (mergeResults exKeywordResultLow exVectorResultHigh).keyword_score =
      some 0.2 ∧
    (mergeResults exKeywordResultLow exVectorResultHigh).vector_score =
      some 0.8 ∧
    (mergeResults exKeywordResultLow exVectorResultHigh).match_type =
      some "keyword,vector" := by
  have h := C1_dedup_merge_amended exKeywordResultLow exVectorResultHigh "m"
    (by decide) rfl rfl
  refine ⟨h.1.trans (if_pos (by norm_num [getScore, exKeywordResultLow,
    exVectorResultHigh])), ?_, ?_, ?_⟩
  · rw [h.2.1]
    norm_num [exKeywordResultLow, exVectorResultHigh]
  · rw [h.2.2.1]
    norm_num [exKeywordResultLow, exVectorResultHigh]
  · rw [h.2.2.2.2.2.2.2.1 "keyword" "vector" rfl rfl (by decide) (by decide)
      (by decide)]
    rw [if_pos (by rw [String.lt_iff_toList_lt]; decide)]
    decide

/-- Counterexample to claim C1 as stated: on the spec's own scenario-B pair,
with the keyword duplicate carrying the higher overall score (0.5 against
0.3), `rank` with deduplication returns the keyword record untouched — its
match type stays `"keyword"` rather than the claimed `"keyword,vector"`,
and its vector score is the normalisation of its own raw 0.0 (namely 0.5)
rather than the claimed element-wise maximum 0.8. -/
theorem C1_counterexample :
    exKeywordResult.memory_id = some "m" ∧
    exVectorResult.memory_id = some "m" ∧
    exKeywordResult.keyword_score = some 0.2 ∧
    exKeywordResult.vector_score = some 0 ∧
    exVectorResult.keyword_score = some 0 ∧
    exVectorResult.vector_score = some 0.8 ∧
    (rank defaultWeights [exKeywordResult, exVectorResult] true).map
        (fun x => x.base.match_type) = [some "keyword"] ∧
    (rank defaultWeights [exKeywordResult, exVectorResult] true).map
        (fun x => x.vector_score) = [1 / 2] := by
  have hr : rank defaultWeights [exKeywordResult, exVectorResult] true =
      [calculateScores defaultWeights exKeywordResult] := by
    simp [rank, dedup_pair_keeps_higher, sortByScoreDesc, insertDesc]
  refine ⟨rfl, rfl, rfl, rfl, rfl, rfl, ?_, ?_⟩
  · rw [hr]
    simp [calculateScores, exKeywordResult]
  · rw [hr]
    simp [calculateScores, exKeywordResult]
    norm_num [normalizeVectorScore, clamp01]

/-- Weights summing to exactly 1.01, the outer edge of the tolerated
`1.0 ± 0.01` band (the constructor's falsy-default fallback only prevents a
weight of exactly 0, not these values). -/
noncomputable def c3Weights : Weights :=
  { keyword := 0.005, vector := 0.25125, reliability := 0.25125
    recency := 0.25125, frequency := 0.25125 }

/-- A result whose vector, reliability, recency and frequency sub-scores all
normalise to exactly 1: cosine 1, stored reliability 1, age 0 days, access
count 1000. -/
def c3Result : RetrievalResult :=
  { memory_id := some "x", match_type := none, score := none
    keyword_score := some 0, vector_score := some 1
    reliability_score := none, recency_score := none, frequency_score := none
    reliability := some 1, created_at := some 0, access_count := some 1000 }

/-- Counterexample to claim C3 as stated: the weights `c3Weights` sum to
1.01, within the claim's `1.0 ± 0.01` band, the stored reliability 1 lies in
the unit interval, and yet the combined score of `c3Result` is 1.005 > 1. -/
theorem C3_counterexample :
    |c3Weights.total - 1| ≤ 0.01 ∧
    (0 ≤ ((c3Result.reliability.getD (1 / 2) : ℚ) : ℝ) ∧
      ((c3Result.reliability.getD (1 / 2) : ℚ) : ℝ) ≤ 1) ∧
    1 < (calculateScores c3Weights c3Result).score := by
  have hk : normalizeKeywordScore ((0 : ℚ) : ℝ) = 0 := by
    simp [normalizeKeywordScore]
  have hv : normalizeVectorScore ((1 : ℚ) : ℝ) = 1 := by
    norm_num [normalizeVectorScore, clamp01]
  have hrec : calculateRecencyScore (some 0) = 1 := by
    norm_num [calculateRecencyScore, clamp01, Real.exp_zero]
  have hfreq : calculateFrequencyScore 1000 = 1 := by
    rw [calculateFrequencyScore, if_neg (by norm_num)]
    rw [show ((1000 : ℤ) : ℝ) = (1000 : ℝ) by norm_num]
    rw [div_self (Real.log_pos (by norm_num : (1 : ℝ) < 1 + 1000)).ne']
    norm_num [clamp01]
  refine ⟨?_, ⟨by norm_num [c3Result], by norm_num [c3Result]⟩, ?_⟩
  · rw [show c3Weights.total = 1.01 by norm_num [c3Weights, Weights.total]]
    rw [show (1.01 : ℝ) - 1 = 0.01 by norm_num, abs_of_nonneg (by norm_num)]
  · show (1 : ℝ) <
      c3Weights.keyword * normalizeKeywordScore ((c3Result.keyword_score.getD 0 : ℚ) : ℝ) +
      c3Weights.vector * normalizeVectorScore ((c3Result.vector_score.getD 0 : ℚ) : ℝ) +
      c3Weights.reliability * ((c3Result.reliability.getD (1 / 2) : ℚ) : ℝ) +
      c3Weights.recency * calculateRecencyScore c3Result.created_at +
      c3Weights.frequency * calculateFrequencyScore (c3Result.access_count.getD 0)
    simp only [c3Result, Option.getD_some]
    rw [show ((0 : ℚ) : ℝ) = ((0 : ℚ) : ℝ) from rfl, hk]
    rw [hv, hrec, hfreq]
    norm_num [c3Weights]

/-- Claim C3 (amended): when the five weights are non-negative and sum to
within 0.01 of 1, and the stored reliability (default 0.5) lies in the unit
interval, the combined score lies between 0 and the weight total — hence in
the interval from 0 to 1.01, but not necessarily below 1, as the
counterexample at weight total 1.01 shows. -/
theorem C3_combined_score_range (w : Weights) (r : RetrievalResult)
    (hwk : 0 ≤ w.keyword) (hwv : 0 ≤ w.vector) (hwrel : 0 ≤ w.reliability)
    (hwrec : 0 ≤ w.recency) (hwf : 0 ≤ w.frequency)
    (htot : |w.total - 1| ≤ 0.01)
    (hr0 : 0 ≤ ((r.reliability.getD (1 / 2) : ℚ) : ℝ))
    (hr1 : ((r.reliability.getD (1 / 2) : ℚ) : ℝ) ≤ 1) :
    0 ≤ (calculateScores w r).score ∧
    (calculateScores w r).score ≤ w.total ∧
    (calculateScores w r).score ≤ 1.01 := by
  have hs1 := normalizeKeywordScore_nonneg ((r.keyword_score.getD 0 : ℚ) : ℝ)
  have hs1' := normalizeKeywordScore_le_one ((r.keyword_score.getD 0 : ℚ) : ℝ)
  have hs2 := normalizeVectorScore_nonneg ((r.vector_score.getD 0 : ℚ) : ℝ)
  have hs2' := normalizeVectorScore_le_one ((r.vector_score.getD 0 : ℚ) : ℝ)
  have hs4 := calculateRecencyScore_nonneg r.created_at
  have hs4' := calculateRecencyScore_le_one r.created_at
  have hs5 := calculateFrequencyScore_nonneg (r.access_count.getD 0)
  have hs5' := calculateFrequencyScore_le_one (r.access_count.getD 0)
  have hscore : (calculateScores w r).score =
      w.keyword * normalizeKeywordScore ((r.keyword_score.getD 0 : ℚ) : ℝ) +
      w.vector * normalizeVectorScore ((r.vector_score.getD 0 : ℚ) : ℝ) +
      w.reliability * ((r.reliability.getD (1 / 2) : ℚ) : ℝ) +
      w.recency * calculateRecencyScore r.created_at +
      w.frequency * calculateFrequencyScore (r.access_count.getD 0) := rfl
  have hle : (calculateScores w r).score ≤ w.total := by
    rw [hscore, Weights.total]
    have l1 : w.keyword * normalizeKeywordScore ((r.keyword_score.getD 0 : ℚ) : ℝ) ≤
        w.keyword := mul_le_of_le_one_right hwk hs1'
    have l2 : w.vector * normalizeVectorScore ((r.vector_score.getD 0 : ℚ) : ℝ) ≤
        w.vector := mul_le_of_le_one_right hwv hs2'
    have l3 : w.reliability * ((r.reliability.getD (1 / 2) : ℚ) : ℝ) ≤
        w.reliability := mul_le_of_le_one_right hwrel hr1
    have l4 : w.recency * calculateRecencyScore r.created_at ≤ w.recency :=
      mul_le_of_le_one_right hwrec hs4'
    have l5 : w.frequency * calculateFrequencyScore (r.access_count.getD 0) ≤
        w.frequency := mul_le_of_le_one_right hwf hs5'
    linarith
  refine ⟨?_, hle, ?_⟩
  · rw [hscore]
    have := mul_nonneg hwk hs1
    have := mul_nonneg hwv hs2
    have := mul_nonneg hwrel hr0
    have := mul_nonneg hwrec hs4
    have := mul_nonneg hwf hs5
    linarith
  · have : w.total ≤ 1.01 := by
      have := (abs_le.mp htot).2
      linarith
    linarith

/-- A result dictionary with every optional field missing: reliability
defaults to 0.5. -/
def c3DefaultResult : RetrievalResult :=
  { memory_id := none, match_type := none, score := none
    keyword_score := none, vector_score := none
    reliability_score := none, recency_score := none, frequency_score := none
    reliability := none, created_at := none, access_count := none }

/-- Witness for C3 (amended) at the default weights (summing to exactly 1)
and an all-default result record. -/
theorem C3_witness :
    0 ≤ (calculateScores defaultWeights c3DefaultResult).score ∧
    (calculateScores defaultWeights c3DefaultResult).score ≤
      defaultWeights.total ∧
    (calculateScores defaultWeights c3DefaultResult).score ≤ 1.01 :=
  C3_combined_score_range defaultWeights c3DefaultResult
    (by norm_num [defaultWeights]) (by norm_num [defaultWeights])
    (by norm_num [defaultWeights]) (by norm_num [defaultWeights])
    (by norm_num [defaultWeights])
    (by rw [show defaultWeights.total = 1 by norm_num [defaultWeights, Weights.total]]
        norm_num)
    (by norm_num [c3DefaultResult]) (by norm_num [c3DefaultResult])

/-- Every entry of the `seen` association list maps a key to a record whose
(truthy) memory id is that key. -/
def EntryInv (p : String × RetrievalResult) : Prop :=
  truthyStr p.2.memory_id = some p.1

lemma mem_of_lookup_eq_some {l : List (String × RetrievalResult)} {k : String}
    {v : RetrievalResult} (h : l.lookup k = some v) : (k, v) ∈ l := by
  induction l with
  | nil => simp [List.lookup] at h
  | cons p t ih =>
    cases p with
    | mk a b =>
      by_cases hk : k = a
      · subst hk
        simp [List.lookup] at h
        simp [h]
      · have hba : (k == a) = false := by simpa using hk
        rw [List.lookup, hba] at h
        exact List.mem_cons_of_mem _ (ih h)

lemma dedupStep_inv (acc : List (String × RetrievalResult))
    (r : RetrievalResult) (h : ∀ p ∈ acc, EntryInv p) :
    ∀ p ∈ dedupStep acc r, EntryInv p := by
  unfold dedupStep
  split
  · exact h
  · next m hm =>
    split
    · intro p hp
      rcases List.mem_append.mp hp with hp | hp
      · exact h p hp
      · simp only [List.mem_singleton] at hp
        subst hp
        exact hm
    · next existing hlk =>
      split
      · intro p hp
        rcases List.mem_map.mp hp with ⟨q, hq, hpq⟩
        by_cases hqm : q.1 = m
        · rw [← hpq, if_pos hqm]
          have hex : EntryInv (m, existing) := h _ (mem_of_lookup_eq_some hlk)
          show truthyStr (mergeResults existing r).memory_id = some m
          simpa [mergeResults] using hex
        · rw [← hpq, if_neg hqm]
          exact h q hq
      · exact h

lemma deduplicate_inv (rs : List RetrievalResult) :
    ∀ x ∈ deduplicate rs, truthyStr x.memory_id ≠ none := by
  have gen : ∀ (l : List RetrievalResult) (acc : List (String × RetrievalResult)),
      (∀ p ∈ acc, EntryInv p) → ∀ p ∈ l.foldl dedupStep acc, EntryInv p := by
    intro l
    induction l with
    | nil => intro acc h; simpa using h
    | cons r t ih => intro acc h; exact ih _ (dedupStep_inv acc r h)
  intro x hx
  rcases List.mem_map.mp hx with ⟨p, hp, hpx⟩
  have hinv := gen rs [] (by simp) p hp
  rw [← hpx, hinv]
  simp

lemma insertDesc_perm (r : RankedResult) (l : List RankedResult) :
    (insertDesc r l).Perm (r :: l) := by
  induction l with
  | nil => simp [insertDesc]
  | cons x xs ih =>
    rw [insertDesc]
    split
    · exact List.Perm.refl _
    · exact (ih.cons x).trans (List.Perm.swap r x xs)

lemma sortByScoreDesc_perm (l : List RankedResult) :
    (sortByScoreDesc l).Perm l := by
  induction l with
  | nil => exact List.Perm.refl _
  | cons x xs ih =>
    show (insertDesc x (sortByScoreDesc xs)).Perm (x :: xs)
    exact (insertDesc_perm x _).trans (ih.cons x)

/-- Claim C10: with deduplication, `rank` silently drops every input whose
memory id is missing, `None`, or empty — every output record has a non-falsy
memory id, so such inputs never appear — whereas with deduplication off the
output is exactly the scored inputs (a permutation, reordered only by the
score sort). -/
theorem C10_falsy_memory_ids (w : Weights) (results : List RetrievalResult) :
    (∀ x ∈ rank w results true,
      x.base.memory_id ≠ none ∧ x.base.memory_id ≠ some "") ∧
    (rank w results false).Perm (results.map (calculateScores w)) := by
  constructor
  · intro x hx
    have hx' : x ∈ (deduplicate results).map (calculateScores w) := by
      cases results with
      | nil => simp [rank] at hx
      | cons r t =>
        have hr : rank w (r :: t) true =
            sortByScoreDesc ((deduplicate (r :: t)).map (calculateScores w)) := by
          simp [rank]
        rw [hr] at hx
        exact (sortByScoreDesc_perm _).mem_iff.mp hx
    rcases List.mem_map.mp hx' with ⟨y, hy, hyx⟩
    have ht := deduplicate_inv results y hy
    have hb : x.base = y := by rw [← hyx]; rfl
    rw [hb]
    cases hy2 : y.memory_id with
    | none => rw [hy2] at ht; simp [truthyStr] at ht
    | some s =>
      rw [hy2] at ht
      by_cases hse : s = ""
      · rw [hse] at ht; simp [truthyStr] at ht
      · exact ⟨by simp, by simpa using hse⟩
  · cases results with
    | nil => simp [rank]
    | cons r t =>
      have hr : rank w (r :: t) false =
          sortByScoreDesc ((r :: t).map (calculateScores w)) := by
        simp [rank]
      rw [hr]
      exact sortByScoreDesc_perm _

/-- Witness for C10: on the single-result list containing the keyword record
of scenario B, the deduplicated ranking's one output has the non-falsy
memory id, and the non-deduplicated ranking is a permutation of the scored
inputs. -/
theorem C10_witness :
    ((calculateScores defaultWeights exKeywordResult).base.memory_id ≠ none ∧
     (calculateScores defaultWeights exKeywordResult).base.memory_id ≠ some "") ∧
    (rank defaultWeights [exKeywordResult] false).Perm
      ([exKeywordResult].map (calculateScores defaultWeights)) :=
  ⟨(C10_falsy_memory_ids defaultWeights [exKeywordResult]).1
      (calculateScores defaultWeights exKeywordResult)
      (by show calculateScores defaultWeights exKeywordResult ∈
            rank defaultWeights [exKeywordResult] true
          rw [show rank defaultWeights [exKeywordResult] true =
            [calculateScores defaultWeights exKeywordResult] from rfl]
          exact List.mem_singleton.mpr rfl),
   (C10_falsy_memory_ids defaultWeights [exKeywordResult]).2⟩

end Jyntrix
